import Mathlib

/-!
# MKeepAPI: project controller, validation helper and project routes

A shallow embedding of `src/src/controllers/project.js`, `src/utils/validation.js`
and `src/routes/project.js`.

* A `Q.defer()` deferred is a value of `Settled`: pending, resolved or rejected; only the
  first settlement counts, later calls to `resolve`/`reject` change nothing.
* The document store behind the Mongoose models is an explicit `Store`; every controller
  operation maps a store to a `Run`: the store afterwards, the datastore calls issued, the
  state of the returned promise and the exception (if any) thrown out of a callback.
* Failures of the datastore, the generated ObjectId, the clock and the schema validators of
  the models (which are not part of the sources) are inputs, gathered in `Env`.
-/

namespace MKeep

/-! ## Errors and promises -/

/-- Error values that travel through the promises of the controllers. -/
inductive JsError where
  /-- An error object produced by the datastore layer. -/
  | db (code : Nat)
  /-- A plain object with fields `status` and `message`. -/
  | http (status : Nat) (message : String)
  /-- A `TypeError` raised by the JavaScript runtime. -/
  | typeError (message : String)
deriving DecidableEq, Repr

/-- State of a `Q.defer()` deferred, which is also the state of its promise. -/
inductive Settled (α : Type) where
  | pending
  | resolved (value : α)
  | rejected (error : JsError)
deriving DecidableEq, Repr

/-- The call `deferred.resolve(value)`: settles a pending deferred, otherwise does nothing. -/
def Settled.resolve {α : Type} (d : Settled α) (value : α) : Settled α :=
  match d with
  | .pending => .resolved value
  | .resolved v => .resolved v
  | .rejected e => .rejected e

/-- The call `deferred.reject(error)`: settles a pending deferred, otherwise does nothing. -/
def Settled.reject {α : Type} (d : Settled α) (error : JsError) : Settled α :=
  match d with
  | .pending => .rejected error
  | .resolved v => .resolved v
  | .rejected e => .rejected e

/-! ## Validation helper (`src/utils/validation.js`) -/

/-- A controller as `isValidAndExist` sees it: `getById(entityId)` returns a promise, given
here by the state that promise ends in. -/
structure Controller (Doc : Type) where
  getById : String → Settled Doc

/-- What a call of `isValidAndExist` leaves behind: the returned promise and the arguments
of the `controller.getById` calls it made, in order. -/
structure ValidationRun (Doc : Type) where
  promise : Settled Doc
  getByIdCalls : List String

/-- `Validation.isValidAndExist(entityId, controller)`. The predicate `isValid` stands for
`mongoose.Types.ObjectId.isValid`. The `if` has no `return`: after rejecting, control falls
through to the lookup. -/
def isValidAndExist {Doc : Type} (isValid : String → Bool) (entityId : String)
    (controller : Controller Doc) : ValidationRun Doc :=
  let deferred : Settled Doc := .pending
  let deferred :=
    if !isValid entityId then
      deferred.reject (.http 403 ("Document id is invalid: " ++ entityId))
    else deferred
  let lookup := controller.getById entityId
  let deferred :=
    match lookup with
    | .resolved doc => deferred.resolve doc
    | .rejected error => deferred.reject error
    | .pending => deferred
  { promise := deferred, getByIdCalls := [entityId] }

/-- Is the character a hexadecimal digit. -/
def isHexChar (c : Char) : Bool :=
  ('0' ≤ c && c ≤ '9') || ('a' ≤ c && c ≤ 'f') || ('A' ≤ c && c ≤ 'F')

/-- The number of UTF-16 code units of a character, which is what `length` of a JavaScript
string counts. -/
def utf16Units (c : Char) : Nat :=
  if c.toNat < 65536 then 1 else 2

/-- The `length` of a JavaScript string. -/
def jsLength (s : String) : Nat :=
  (s.toList.map utf16Units).sum

/-- An instance of the identifier check for strings, after the documented behaviour of the
ObjectId type: a string of length twelve, or twenty-four hexadecimal digits. -/
def objectIdIsValid (s : String) : Bool :=
  jsLength s == 12 || (jsLength s == 24 && s.toList.all isHexChar)

/-! ## Documents and the store -/

/-- A user document: identifier and the `projects` array. -/
structure User where
  _id : Nat
  projects : List Nat
deriving DecidableEq, Repr

/-- A currency document; only its identifier matters here. -/
structure Currency where
  _id : Nat
deriving DecidableEq, Repr

/-- A project document as stored: reference fields hold identifiers. -/
structure Project where
  _id : Nat
  name : String
  owners : List Nat
  users : List Nat
  mainCurrency : Option Nat
  currencies : List Nat
  created : Nat
  createdBy : Nat
  modifiedBy : Nat
deriving DecidableEq, Repr

/-- A project after `populate('owners users currencies mainCurrency createdBy modifiedBy')`:
the reference fields hold the referenced documents. -/
structure PopulatedProject where
  _id : Nat
  name : String
  owners : List User
  users : List User
  mainCurrency : Option Currency
  currencies : List Currency
  created : Nat
  createdBy : Option User
  modifiedBy : Option User
deriving DecidableEq, Repr

/-- The collections the project controller reads and writes. -/
structure Store where
  users : List User
  projects : List Project
  currencies : List Currency
deriving DecidableEq, Repr

/-- What the surroundings contribute to one controller call. -/
structure Env where
  /-- The ObjectId that `new ProjectModel(...)` generates. -/
  newId : Nat
  /-- The value of `new Date()`. -/
  now : Nat
  /-- The validators of the project schema on `name`: the error they raise, if any. -/
  validateName : String → Option JsError
  /-- Failure of the insert issued by `newProject.save`. -/
  saveError : Option JsError
  /-- Failure of `UserModel.findOneAndUpdate`. -/
  userUpdateError : Option JsError
  /-- Failure of `ProjectModel.populate`. -/
  populateError : Option JsError
  /-- Failure of the `ProjectModel.findOne(...).populate(...)` query. -/
  findOneError : Option JsError
  /-- Failure of `ProjectModel.findOneAndUpdate`. -/
  projectUpdateError : Option JsError

/-- The datastore calls a controller operation can issue. -/
inductive Call where
  | projectSave
  | userFindOneAndUpdate
  | projectPopulate
  | projectFindOne
  | projectFindOneAndUpdate
deriving DecidableEq, Repr

/-- Outcome of a controller operation. -/
structure Run (α : Type) where
  /-- The store when the operation has run to its end. -/
  store : Store
  /-- The datastore calls issued, in order. -/
  calls : List Call
  /-- The state of the promise the operation returned. -/
  promise : Settled α
  /-- The exception thrown out of a datastore callback, if one was. -/
  uncaught : Option JsError

/-- Options of a Mongoose query; an option that is not passed keeps its default. -/
structure QueryOptions where
  /-- Return the document as it is after the update, not as it was found. -/
  new : Bool := false
  /-- Run the schema validators on the update. -/
  runValidators : Bool := false
deriving DecidableEq, Repr

/-- First user document with the given identifier. -/
def findUser (s : Store) (userId : Nat) : Option User :=
  s.users.find? (fun u => u._id == userId)

/-- First currency document with the given identifier. -/
def findCurrency (s : Store) (currencyId : Nat) : Option Currency :=
  s.currencies.find? (fun c => c._id == currencyId)

/-- The update operator `$addToSet` on an array: append the value unless it is present. -/
def addToSet (xs : List Nat) (x : Nat) : List Nat :=
  if x ∈ xs then xs else xs ++ [x]

/-- Replace the first element that satisfies `p` by its image under `f`. -/
def updateFirst {α : Type} (p : α → Bool) (f : α → α) : List α → List α
  | [] => []
  | x :: xs => if p x then f x :: xs else x :: updateFirst p f xs

/-- Expansion of the reference fields of a project against the store: an array keeps the
documents that exist, a single reference becomes the document or null. -/
def populateFields (s : Store) (p : Project) : PopulatedProject :=
  { _id := p._id
    name := p.name
    owners := p.owners.filterMap (findUser s)
    users := p.users.filterMap (findUser s)
    mainCurrency := p.mainCurrency.bind (findCurrency s)
    currencies := p.currencies.filterMap (findCurrency s)
    created := p.created
    createdBy := findUser s p.createdBy
    modifiedBy := findUser s p.modifiedBy }

/-- The call `document.save(callback)`: validate, then insert; `_id` is a unique key. -/
def ProjectModel.save (env : Env) (s : Store) (doc : Project) : Except JsError (Store × Project) :=
  match env.validateName doc.name with
  | some e => .error e
  | none =>
    match env.saveError with
    | some e => .error e
    | none =>
      if s.projects.any (fun q => q._id == doc._id) then .error (.db 11000)
      else .ok ({ s with projects := s.projects ++ [doc] }, doc)

/-- The query `UserModel.findOneAndUpdate({_id}, {$addToSet: {projects}}, options)`: the
callback receives the matched document (as found, unless `new` is set), or null when no
user matches, which is not an error. -/
def UserModel.findOneAndUpdate (env : Env) (s : Store) (userId projectId : Nat)
    (options : QueryOptions) : Except JsError (Store × Option User) :=
  match env.userUpdateError with
  | some e => .error e
  | none =>
    match findUser s userId with
    | none => .ok (s, none)
    | some u =>
      let updated : User := { u with projects := addToSet u.projects projectId }
      let users := updateFirst (fun v => v._id == userId)
        (fun v => { v with projects := addToSet v.projects projectId }) s.users
      .ok ({ s with users := users }, some (if options.new then updated else u))

/-- The call `ProjectModel.populate(project, paths, callback)`. -/
def ProjectModel.populate (env : Env) (s : Store) (project : Project) :
    Except JsError PopulatedProject :=
  match env.populateError with
  | some e => .error e
  | none => .ok (populateFields s project)

/-- The query `ProjectModel.findOne({users, _id}).populate(paths)`: the first project with
that identifier whose `users` array contains the user, expanded; null when none matches,
which is not an error. -/
def ProjectModel.findOne (env : Env) (s : Store) (id userId : Nat) :
    Except JsError (Option PopulatedProject) :=
  match env.findOneError with
  | some e => .error e
  | none =>
    .ok ((s.projects.find? (fun p => p._id == id && decide (userId ∈ p.users))).map
          (populateFields s))

/-- The query `ProjectModel.findOneAndUpdate({_id, owners}, {name}, options)`: the first
project with that identifier whose `owners` array contains the user gets the name; the
callback receives the matched document (as found, unless `new` is set), or null when no
project matches, which is not an error. -/
def ProjectModel.findOneAndUpdate (env : Env) (s : Store) (id userId : Nat) (name : String)
    (options : QueryOptions) : Except JsError (Store × Option Project) :=
  match (if options.runValidators then env.validateName name else none) with
  | some e => .error e
  | none =>
    match env.projectUpdateError with
    | some e => .error e
    | none =>
      match s.projects.find? (fun p => p._id == id && decide (userId ∈ p.owners)) with
      | none => .ok (s, none)
      | some p =>
        let projects := updateFirst (fun q => q._id == id && decide (userId ∈ q.owners))
          (fun q => { q with name := name }) s.projects
        .ok ({ s with projects := projects }, some (if options.new then { p with name := name } else p))

/-! ## Project controller (`src/src/controllers/project.js`) -/

/-- Argument of `post`. -/
structure PostData where
  name : String
  userId : Nat
  mainCurrency : Option Nat := none
deriving DecidableEq, Repr

/-- Argument of `getById`. -/
structure GetByIdData where
  id : Nat
  userId : Nat
deriving DecidableEq, Repr

/-- Argument of `rename`. -/
structure RenameData where
  id : Nat
  userId : Nat
  name : String
deriving DecidableEq, Repr

/-- The document built by `new ProjectModel({...})` in `post`. -/
def newProject (env : Env) (data : PostData) : Project :=
  { _id := env.newId
    name := data.name
    owners := [data.userId]
    users := [data.userId]
    mainCurrency := data.mainCurrency
    currencies := []
    created := env.now
    createdBy := data.userId
    modifiedBy := data.userId }

/-- The operation `post(data)`: save the project, add its id to the user, populate. -/
def post (env : Env) (s : Store) (data : PostData) : Run PopulatedProject :=
  let deferred : Settled PopulatedProject := .pending
  match ProjectModel.save env s (newProject env data) with
  | .error error =>
    { store := s, calls := [.projectSave], promise := deferred.reject error, uncaught := none }
  | .ok (s1, project) =>
    match UserModel.findOneAndUpdate env s1 data.userId project._id { runValidators := true } with
    | .error error =>
      { store := s1, calls := [.projectSave, .userFindOneAndUpdate],
        promise := deferred.reject error, uncaught := none }
    | .ok (s2, _doc) =>
      match ProjectModel.populate env s2 project with
      | .error error =>
        { store := s2, calls := [.projectSave, .userFindOneAndUpdate, .projectPopulate],
          promise := deferred.reject error, uncaught := none }
      | .ok project =>
        { store := s2, calls := [.projectSave, .userFindOneAndUpdate, .projectPopulate],
          promise := deferred.resolve project, uncaught := none }

/-- The operation `getById(data)`: resolves with whatever the query calls back with, a
populated project or null (`none`). -/
def getById (env : Env) (s : Store) (data : GetByIdData) : Run (Option PopulatedProject) :=
  let deferred : Settled (Option PopulatedProject) := .pending
  match ProjectModel.findOne env s data.id data.userId with
  | .error error =>
    { store := s, calls := [.projectFindOne], promise := deferred.reject error, uncaught := none }
  | .ok project =>
    { store := s, calls := [.projectFindOne], promise := deferred.resolve project,
      uncaught := none }

/-- The operation `rename(data)`: the callback resolves with `doc.name`; when `doc` is null
the property access throws and the deferred is left as it is. -/
def rename (env : Env) (s : Store) (data : RenameData) : Run String :=
  let deferred : Settled String := .pending
  match ProjectModel.findOneAndUpdate env s data.id data.userId data.name
      { runValidators := true } with
  | .error error =>
    { store := s, calls := [.projectFindOneAndUpdate], promise := deferred.reject error,
      uncaught := none }
  | .ok (s1, doc) =>
    match doc with
    | none =>
      { store := s1, calls := [.projectFindOneAndUpdate], promise := deferred,
        uncaught := some (.typeError "Cannot read property name of null") }
    | some d =>
      { store := s1, calls := [.projectFindOneAndUpdate], promise := deferred.resolve d.name,
        uncaught := none }

/-- A step of the controller that writes project documents. -/
inductive Op where
  | post (env : Env) (data : PostData)
  | rename (env : Env) (data : RenameData)

/-- The store after one step. -/
def Op.apply (s : Store) : Op → Store
  | .post env data => (MKeep.post env s data).store
  | .rename env data => (MKeep.rename env s data).store

/-- The store after a sequence of steps. -/
def runOps (s : Store) (ops : List Op) : Store :=
  ops.foldl Op.apply s

/-- The ownership invariant of the data model: every stored project has an owner and every
owner is among its users. -/
def OwnershipInvariant (s : Store) : Prop :=
  ∀ p ∈ s.projects, p.owners ≠ [] ∧ ∀ o ∈ p.owners, o ∈ p.users

instance (s : Store) : Decidable (OwnershipInvariant s) := by
  unfold OwnershipInvariant
  infer_instance

/-- The store with no documents. -/
def emptyStore : Store :=
  { users := [], projects := [], currencies := [] }

/-- Surroundings in which no datastore call fails and every name is accepted. -/
def quietEnv (newId now : Nat) : Env :=
  { newId := newId, now := now, validateName := fun _ => none, saveError := none,
    userUpdateError := none, populateError := none, findOneError := none,
    projectUpdateError := none }

/-- A store with two users and one project, "Household": user 1 owns it, users 1 and 2 are
its members. -/
def householdStore : Store :=
  { users := [{ _id := 1, projects := [10] }, { _id := 2, projects := [] }]
    projects := [{ _id := 10, name := "Household", owners := [1], users := [1, 2],
                   mainCurrency := none, currencies := [], created := 0, createdBy := 1,
                   modifiedBy := 1 }]
    currencies := [] }

/-- A store whose only user holds the id 11 in its projects although no project 11 is
stored. -/
def danglingStore : Store :=
  { users := [{ _id := 1, projects := [11] }], projects := [], currencies := [] }

/-- Surroundings in which only the user update fails, with the given error. -/
def userUpdateFailsEnv (newId now : Nat) (e : JsError) : Env :=
  { newId := newId, now := now, validateName := fun _ => none, saveError := none,
    userUpdateError := some e, populateError := none, findOneError := none,
    projectUpdateError := none }

/-! ## Project routes (`src/routes/project.js`) -/

/-- JavaScript values as the route layer handles them. -/
inductive JSVal where
  | undefined
  | null
  | bool (b : Bool)
  | num (n : Nat)
  | str (s : String)
  | arr (items : List JSVal)
  | obj (fields : List (String × JSVal))

/-- Property access `value.key`: throws on `undefined` and `null`, gives `undefined` for a
property that is not there. -/
def JSVal.getProp (v : JSVal) (key : String) : Except JsError JSVal :=
  match v with
  | .undefined => .error (.typeError ("Cannot read property " ++ key ++ " of undefined"))
  | .null => .error (.typeError ("Cannot read property " ++ key ++ " of null"))
  | .obj fields => .ok ((fields.lookup key).getD .undefined)
  | _ => .ok .undefined

/-- Truthiness, as `!value` tests it. -/
def JSVal.truthy : JSVal → Bool
  | .undefined => false
  | .null => false
  | .bool b => b
  | .num n => n != 0
  | .str s => s != ""
  | .arr _ => true
  | .obj _ => true

/-- A user document as a JavaScript object. -/
def User.toJS (u : User) : JSVal :=
  .obj [("_id", .num u._id), ("projects", .arr (u.projects.map .num))]

/-- A currency document as a JavaScript object. -/
def Currency.toJS (c : Currency) : JSVal :=
  .obj [("_id", .num c._id)]

/-- A reference that populate could not follow is `null`. -/
def optToJS {α : Type} (f : α → JSVal) : Option α → JSVal
  | none => .null
  | some a => f a

/-- A populated project as a JavaScript object: the fields of the project document. -/
def PopulatedProject.toJS (p : PopulatedProject) : JSVal :=
  .obj [("_id", .num p._id),
        ("name", .str p.name),
        ("owners", .arr (p.owners.map User.toJS)),
        ("users", .arr (p.users.map User.toJS)),
        ("mainCurrency", optToJS Currency.toJS p.mainCurrency),
        ("currencies", .arr (p.currencies.map Currency.toJS)),
        ("created", .num p.created),
        ("createdBy", optToJS User.toJS p.createdBy),
        ("modifiedBy", optToJS User.toJS p.modifiedBy)]

/-- The argument the `id` parameter hook passes to `projectController.getById`. -/
structure HookData where
  id : String
  accessToken : JSVal

/-- The parts of the request object the project routes touch. -/
structure Req where
  /-- The query parameter `req.query.access_token`. -/
  accessToken : JSVal
  /-- The field `req.result`. -/
  result : JSVal
  /-- The field `req.project`. -/
  project : JSVal
  /-- The field `req.error`; `none` is `undefined`. -/
  error : Option JsError

/-- A request on which no hook has run yet. -/
def freshReq (accessToken : JSVal) : Req :=
  { accessToken := accessToken, result := .undefined, project := .undefined, error := none }

/-- What a handler does with the response object. -/
inductive Response where
  /-- The call `res.json(body)`. -/
  | json (body : JSVal)
  /-- The call `sendError(error, res)`; `none` is `undefined`. -/
  | sendError (error : Option JsError)

/-- The hook `router.param('id', ...)`. The routes require `../controllers/project.js`, a
controller that is not among the sources: its `getById` is a parameter, given by the state
its promise ends in. The result is the request on which `next()` is called, `none`
when it never is. An exception thrown in the `then` callback goes to the `fail` callback. -/
def routerParamId (getById : HookData → Settled JSVal) (req : Req) (id : String) : Option Req :=
  match getById { id := id, accessToken := req.accessToken } with
  | .resolved result =>
    let req := { req with result := result }
    match result.getProp "project" with
    | .ok project => some { req with project := project }
    | .error error => some { req with error := some error }
  | .rejected error => some { req with error := some error }
  | .pending => none

/-- The handler of `GET /projects/:id`. -/
def getProjectHandler (req : Req) : Response :=
  if !req.project.truthy then .sendError req.error else .json req.result

/-- A request to `GET /projects/:id`: the parameter hook, then the handler. -/
def getProjectRoute (getById : HookData → Settled JSVal) (req : Req) (id : String) :
    Option Response :=
  (routerParamId getById req id).map getProjectHandler

/-- A result as the hook reads it: an object that carries the "Household" project, expanded,
under `project`. -/
def householdResult : JSVal :=
  .obj [("project", (populateFields householdStore
    { _id := 10, name := "Household", owners := [1], users := [1, 2], mainCurrency := none,
      currencies := [], created := 0, createdBy := 1, modifiedBy := 1 }).toJS)]

/-! ## Lemmas on the store operations -/

theorem find?_updateFirst {α : Type} (p : α → Bool) (f : α → α) (hf : ∀ x, p x = true → p (f x) = true)
    (l : List α) : (updateFirst p f l).find? p = (l.find? p).map f := by
  induction l with
  | nil => rfl
  | cons x xs ih =>
    by_cases hx : p x = true
    · simp [updateFirst, hx, List.find?, hf x hx]
    · simp [updateFirst, hx, List.find?, ih]

theorem mem_updateFirst {α : Type} (p : α → Bool) (f : α → α) (l : List α) (q : α)
    (h : q ∈ updateFirst p f l) : q ∈ l ∨ ∃ x ∈ l, q = f x := by
  induction l with
  | nil => simp [updateFirst] at h
  | cons x xs ih =>
    cases hx : p x with
    | true =>
      rw [updateFirst, hx, if_pos rfl, List.mem_cons] at h
      rcases h with h1 | h1
      · exact Or.inr ⟨x, List.mem_cons_self _ _, h1⟩
      · exact Or.inl (List.mem_cons_of_mem _ h1)
    | false =>
      rw [updateFirst, hx, if_neg (by simp), List.mem_cons] at h
      rcases h with h1 | h1
      · exact Or.inl (by rw [h1]; exact List.mem_cons_self _ _)
      · rcases ih h1 with h2 | ⟨y, hy, hq⟩
        · exact Or.inl (List.mem_cons_of_mem _ h2)
        · exact Or.inr ⟨y, List.mem_cons_of_mem _ hy, hq⟩

theorem map_updateFirst {α β : Type} (p : α → Bool) (f : α → α) (g : α → β)
    (hg : ∀ x, g (f x) = g x) (l : List α) : (updateFirst p f l).map g = l.map g := by
  induction l with
  | nil => rfl
  | cons x xs ih =>
    by_cases hx : p x = true
    · simp [updateFirst, hx, hg]
    · simp [updateFirst, hx, ih]

theorem mem_addToSet (xs : List Nat) (x y : Nat) : y ∈ addToSet xs x ↔ y ∈ xs ∨ y = x := by
  unfold addToSet
  by_cases h : x ∈ xs
  · simp only [h, if_true]
    constructor
    · exact Or.inl
    · rintro (h1 | h1)
      · exact h1
      · rw [h1]; exact h
  · simp [h]

theorem nodup_addToSet (xs : List Nat) (x : Nat) (h : xs.Nodup) : (addToSet xs x).Nodup := by
  unfold addToSet
  by_cases hx : x ∈ xs
  · simpa [hx] using h
  · simp only [hx, if_false]
    rw [List.nodup_append]
    refine ⟨h, List.nodup_singleton x, ?_⟩
    intro a ha hb
    simp only [List.mem_singleton] at hb
    exact hx (hb ▸ ha)

/-- A successful save appends the document and touches nothing else. -/
theorem save_ok (env : Env) (s s1 : Store) (doc doc1 : Project)
    (h : ProjectModel.save env s doc = .ok (s1, doc1)) :
    doc1 = doc ∧ s1.projects = s.projects ++ [doc] ∧ s1.users = s.users ∧
      s1.currencies = s.currencies := by
  unfold ProjectModel.save at h
  split at h
  · cases h
  · split at h
    · cases h
    · split at h
      · cases h
      · cases h
        exact ⟨rfl, rfl, rfl, rfl⟩

/-- A user update that does not fail leaves the projects alone; a matched user gets the id
added to its set, and when no user matches nothing changes. -/
theorem userUpdate_ok (env : Env) (s s2 : Store) (userId projectId : Nat) (o : QueryOptions)
    (doc : Option User) (h : UserModel.findOneAndUpdate env s userId projectId o = .ok (s2, doc)) :
    s2.projects = s.projects ∧ s2.currencies = s.currencies ∧
      findUser s2 userId =
        (findUser s userId).map (fun v => { v with projects := addToSet v.projects projectId }) := by
  unfold UserModel.findOneAndUpdate at h
  split at h
  · cases h
  · split at h
    · rename_i hnone
      cases h
      simp [hnone]
    · cases h
      refine ⟨rfl, rfl, ?_⟩
      unfold findUser
      exact find?_updateFirst (fun v : User => v._id == userId)
        (fun v => { v with projects := addToSet v.projects projectId }) (fun x hx => hx) s.users

/-- What a resolved `post` went through. -/
theorem post_resolved (env : Env) (s : Store) (data : PostData) (p : PopulatedProject)
    (h : (post env s data).promise = .resolved p) :
    ∃ s1 s2 doc, ProjectModel.save env s (newProject env data) = .ok (s1, newProject env data) ∧
      UserModel.findOneAndUpdate env s1 data.userId env.newId { runValidators := true }
        = .ok (s2, doc) ∧
      (post env s data).store = s2 ∧ p = populateFields s2 (newProject env data) := by
  unfold post at h ⊢
  cases hsave : ProjectModel.save env s (newProject env data) with
  | error e => simp [hsave, Settled.reject] at h
  | ok r =>
    obtain ⟨s1, project⟩ := r
    have hp : project = newProject env data := (save_ok env s s1 _ _ hsave).1
    subst hp
    simp only [hsave] at h ⊢
    have hid : (newProject env data)._id = env.newId := rfl
    rw [hid] at h ⊢
    cases hupd : UserModel.findOneAndUpdate env s1 data.userId env.newId { runValidators := true } with
    | error e => simp [hupd, Settled.reject] at h
    | ok r2 =>
      obtain ⟨s2, doc⟩ := r2
      simp only [hupd] at h ⊢
      cases hpop : ProjectModel.populate env s2 (newProject env data) with
      | error e => simp [hpop, Settled.reject] at h
      | ok pp =>
        simp only [hpop, Settled.resolve] at h ⊢
        refine ⟨s1, s2, doc, rfl, hupd, rfl, ?_⟩
        unfold ProjectModel.populate at hpop
        split at hpop
        · cases hpop
        · cases hpop
          cases h
          rfl

/-- The projects in the store after `post`: as before, or with the new document appended. -/
theorem post_store_projects (env : Env) (s : Store) (data : PostData) :
    (post env s data).store.projects = s.projects ∨
      (post env s data).store.projects = s.projects ++ [newProject env data] := by
  unfold post
  cases hsave : ProjectModel.save env s (newProject env data) with
  | error e => exact Or.inl rfl
  | ok r =>
    obtain ⟨s1, project⟩ := r
    have hs1 := (save_ok env s s1 _ _ hsave).2.1
    simp only
    cases hupd : UserModel.findOneAndUpdate env s1 data.userId project._id
        { runValidators := true } with
    | error e => exact Or.inr hs1
    | ok r2 =>
      obtain ⟨s2, doc⟩ := r2
      have hs2 := (userUpdate_ok env s1 s2 _ _ _ doc hupd).1
      simp only
      cases ProjectModel.populate env s2 project <;> exact Or.inr (hs2.trans hs1)

/-- A project update that does not fail changes no user and nothing of a project that is
blind to the name. -/
theorem projectUpdate_ok {β : Type} (g : Project → β)
    (hg : ∀ (q : Project) (n : String), g { q with name := n } = g q)
    (env : Env) (s s1 : Store) (id userId : Nat) (name : String) (o : QueryOptions)
    (doc : Option Project)
    (h : ProjectModel.findOneAndUpdate env s id userId name o = .ok (s1, doc)) :
    s1.projects.map g = s.projects.map g ∧ s1.users = s.users := by
  unfold ProjectModel.findOneAndUpdate at h
  split at h
  · cases h
  · split at h
    · cases h
    · split at h
      · cases h
        exact ⟨rfl, rfl⟩
      · cases h
        exact ⟨map_updateFirst _ _ g (fun q => hg q name) s.projects, rfl⟩

/-- The store after `rename` differs from the store before at most in names. -/
theorem rename_store (β : Type) (g : Project → β)
    (hg : ∀ (q : Project) (n : String), g { q with name := n } = g q)
    (env : Env) (s : Store) (data : RenameData) :
    (rename env s data).store.projects.map g = s.projects.map g ∧
      (rename env s data).store.users = s.users := by
  unfold rename
  cases h : ProjectModel.findOneAndUpdate env s data.id data.userId data.name
      { runValidators := true } with
  | error e => exact ⟨rfl, rfl⟩
  | ok r =>
    obtain ⟨s1, doc⟩ := r
    have h1 := projectUpdate_ok g hg env s s1 _ _ _ _ doc h
    cases doc <;> exact h1

/-- The ownership invariant only looks at the owners and users of the stored projects. -/
theorem ownershipInvariant_congr (s t : Store)
    (h : t.projects.map (fun p => (p.owners, p.users)) = s.projects.map (fun p => (p.owners, p.users)))
    (hs : OwnershipInvariant s) : OwnershipInvariant t := by
  intro p hp
  have hmem : (p.owners, p.users) ∈ t.projects.map (fun p => (p.owners, p.users)) :=
    List.mem_map_of_mem _ hp
  rw [h, List.mem_map] at hmem
  obtain ⟨q, hq, heq⟩ := hmem
  have hq2 := hs q hq
  simp only [Prod.mk.injEq] at heq
  rw [← heq.1, ← heq.2]
  exact hq2

theorem post_preserves_invariant (env : Env) (s : Store) (data : PostData)
    (hs : OwnershipInvariant s) : OwnershipInvariant (post env s data).store := by
  intro p hp
  rcases post_store_projects env s data with h | h
  · rw [h] at hp
    exact hs p hp
  · rw [h, List.mem_append, List.mem_singleton] at hp
    rcases hp with hp | hp
    · exact hs p hp
    · subst hp
      simp [newProject]

theorem rename_preserves_invariant (env : Env) (s : Store) (data : RenameData)
    (hs : OwnershipInvariant s) : OwnershipInvariant (rename env s data).store :=
  ownershipInvariant_congr s _
    (rename_store _ (fun p => (p.owners, p.users)) (fun _ _ => rfl) env s data).1 hs

theorem runOps_preserves_invariant (ops : List Op) :
    ∀ s : Store, OwnershipInvariant s → OwnershipInvariant (runOps s ops) := by
  induction ops with
  | nil => intro s hs; exact hs
  | cons op rest ih =>
    intro s hs
    have hstep : OwnershipInvariant (Op.apply s op) := by
      cases op with
      | post env data => exact post_preserves_invariant env s data hs
      | rename env data => exact rename_preserves_invariant env s data hs
    exact ih _ hstep

/-! ## Validation helper -/

/-- C4: for an identifier that is not a valid ObjectId, `isValidAndExist` should make no
call of `controller.getById`. It does make one: after rejecting it still calls
`controller.getById`, once, with that identifier, whatever the controller is. -/
theorem isValidAndExist_invalid_id_still_looks_up (controller : Controller Nat) :
    objectIdIsValid "not-an-id" = false ∧
      (isValidAndExist objectIdIsValid "not-an-id" controller).getByIdCalls = ["not-an-id"] ∧
      (isValidAndExist objectIdIsValid "not-an-id" controller).getByIdCalls.length = 1 :=
  ⟨by decide, rfl, rfl⟩

/-- C5: for an identifier that is not a valid ObjectId, the promise of `isValidAndExist` is
rejected with `{status: 403, message: 'Document id is invalid: ' + entityId}`, whether the
lookup promise resolves, rejects or stays pending: the lookup never replaces the error. -/
theorem isValidAndExist_invalid_id_rejected {Doc : Type} (isValid : String → Bool)
    (entityId : String) (controller : Controller Doc) (h : isValid entityId = false) :
    (isValidAndExist isValid entityId controller).promise =
      .rejected (.http 403 ("Document id is invalid: " ++ entityId)) := by
  unfold isValidAndExist
  simp only [h, Bool.not_false, if_true]
  cases controller.getById entityId <;> rfl

/-- Witness of C5: the identifier "not-an-id" with a lookup that resolves, and with one
that rejects with another error. -/
theorem isValidAndExist_invalid_id_rejected_witness :
    objectIdIsValid "not-an-id" = false ∧
      (isValidAndExist objectIdIsValid "not-an-id"
          ({ getById := fun _ => .resolved 7 } : Controller Nat)).promise =
        .rejected (.http 403 "Document id is invalid: not-an-id") ∧
      (isValidAndExist objectIdIsValid "not-an-id"
          ({ getById := fun _ => .rejected (.db 1) } : Controller Nat)).promise =
        .rejected (.http 403 "Document id is invalid: not-an-id") :=
  ⟨by decide,
   isValidAndExist_invalid_id_rejected objectIdIsValid "not-an-id" _ (by decide),
   isValidAndExist_invalid_id_rejected objectIdIsValid "not-an-id" _ (by decide)⟩

/-! ## Project controller: rename -/

/-- C1: `rename` by an owner should resolve with the new name. On the store with project
"Household" owned by user 1, renaming it to "Home" as user 1 stores "Home" and resolves
with "Household", the name the project had before the call. -/
theorem rename_resolves_with_previous_name :
    (rename (quietEnv 11 5) householdStore { id := 10, userId := 1, name := "Home" }).promise
        = .resolved "Household" ∧
      (rename (quietEnv 11 5) householdStore { id := 10, userId := 1, name := "Home" }).store.projects.map
          (fun p => p.name) = ["Home"] := by
  decide

/-- C3: `rename` by a member who is not an owner should be rejected and leave the name.
User 2, a member but not an owner of "Household", gets a promise that is never settled:
the callback throws a TypeError on the null document. The name is left as it was. -/
theorem rename_by_non_owner_never_settles :
    (rename (quietEnv 11 5) householdStore { id := 10, userId := 2, name := "Home" }).promise
        = .pending ∧
      (rename (quietEnv 11 5) householdStore { id := 10, userId := 2, name := "Home" }).uncaught
        = some (.typeError "Cannot read property name of null") ∧
      (rename (quietEnv 11 5) householdStore { id := 10, userId := 2, name := "Home" }).store
        = householdStore := by
  decide

/-! ## Project routes -/

/-- C10: on a request to `GET /projects/:id`, when the `getById` call of the hook resolved
with a result that carries a project (its `project` property is truthy), the handler calls
`res.json` with the stashed result and not `sendError`; when the call failed with `e`, the
handler calls `sendError` with exactly `e`. -/
theorem getProject_stashed_result_or_error (getById : HookData → Settled JSVal)
    (accessToken : JSVal) (id : String) :
    (∀ result project, getById { id := id, accessToken := accessToken } = .resolved result →
        result.getProp "project" = .ok project → project.truthy = true →
        getProjectRoute getById (freshReq accessToken) id = some (.json result)) ∧
      (∀ e, getById { id := id, accessToken := accessToken } = .rejected e →
        getProjectRoute getById (freshReq accessToken) id = some (.sendError (some e))) := by
  constructor
  · intro result project hres hprop htruthy
    simp [getProjectRoute, routerParamId, freshReq, hres, hprop, getProjectHandler, htruthy]
  · intro e hrej
    simp [getProjectRoute, routerParamId, freshReq, hrej, getProjectHandler, JSVal.truthy]

/-- Witness of C10: a lookup that resolves with a result carrying the "Household" project is
answered with that result as JSON, and a lookup that fails with a datastore error is
answered with that error. -/
theorem getProject_stashed_result_or_error_witness :
    getProjectRoute (fun _ => .resolved householdResult) (freshReq .undefined) "10"
        = some (.json householdResult) ∧
      getProjectRoute (fun _ => .rejected (.db 7)) (freshReq .undefined) "10"
        = some (.sendError (some (.db 7))) :=
  ⟨(getProject_stashed_result_or_error (fun _ => .resolved householdResult) .undefined "10").1
      householdResult
      ((populateFields householdStore
        { _id := 10, name := "Household", owners := [1], users := [1, 2], mainCurrency := none,
          currencies := [], created := 0, createdBy := 1, modifiedBy := 1 }).toJS)
      rfl rfl rfl,
   (getProject_stashed_result_or_error (fun _ => .rejected (.db 7)) .undefined "10").2
      (.db 7) rfl⟩

/-! ## Project controller: getById -/

/-- C2: `getById` should resolve with the project only for a member of its users and fail
as not found otherwise. For user 3, who is not a member of project 10, and for a project id
that is not stored at all, `getById` resolves, with null; it is not rejected. -/
theorem getById_not_found_resolves_null :
    (getById (quietEnv 11 5) householdStore { id := 10, userId := 3 }).promise = .resolved none ∧
      (getById (quietEnv 11 5) emptyStore { id := 10, userId := 1 }).promise = .resolved none ∧
      ¬ ∃ e, (getById (quietEnv 11 5) householdStore { id := 10, userId := 3 }).promise
          = .rejected e := by
  refine ⟨by decide, by decide, ?_⟩
  rintro ⟨e, he⟩
  have h : (getById (quietEnv 11 5) householdStore { id := 10, userId := 3 }).promise
      = .resolved none := by decide
  rw [h] at he
  cases he

/-- What `getById` does on every store: when the query does not fail it resolves, with a
project (the expansion of a stored project with that id that has the user among its users)
exactly when such a project is stored, and with null otherwise. It is rejected only with the
error of the datastore. The store is left as it was. -/
theorem getById_membership_gate (env : Env) (s : Store) (data : GetByIdData) :
    (getById env s data).store = s ∧
    (∀ e, env.findOneError = some e → (getById env s data).promise = .rejected e) ∧
    (env.findOneError = none →
      ∃ r, (getById env s data).promise = .resolved r ∧
        (∀ q, r = some q → q._id = data.id ∧
          ∃ p ∈ s.projects, p._id = data.id ∧ data.userId ∈ p.users ∧ q = populateFields s p) ∧
        (r = none ↔ ¬ ∃ p ∈ s.projects, p._id = data.id ∧ data.userId ∈ p.users)) := by
  refine ⟨?_, ?_, ?_⟩
  · unfold getById
    cases ProjectModel.findOne env s data.id data.userId <;> rfl
  · intro e he
    simp [getById, ProjectModel.findOne, he, Settled.reject]
  · intro he
    refine ⟨(s.projects.find? (fun p => p._id == data.id && decide (data.userId ∈ p.users))).map
      (populateFields s), ?_, ?_, ?_⟩
    · simp [getById, ProjectModel.findOne, he, Settled.resolve]
    · intro q hq
      cases hf : s.projects.find? (fun p => p._id == data.id && decide (data.userId ∈ p.users)) with
      | none => simp [hf] at hq
      | some p =>
        simp only [hf, Option.map_some', Option.some.injEq] at hq
        have hmem := List.mem_of_find?_eq_some hf
        have hsat := List.find?_some hf
        simp only [Bool.and_eq_true, beq_iff_eq, decide_eq_true_eq] at hsat
        subst hq
        exact ⟨hsat.1, p, hmem, hsat.1, hsat.2, rfl⟩
    · simp only [Option.map_eq_none', List.find?_eq_none, Bool.and_eq_true, beq_iff_eq,
        decide_eq_true_eq, not_and, not_exists]

/-- On the household store no query fails and member 2 gets the project. -/
theorem getById_membership_gate_witness :
    (∃ r, (getById (quietEnv 11 5) householdStore { id := 10, userId := 2 }).promise = .resolved r ∧
        (∀ q, r = some q → q._id = 10 ∧
          ∃ p ∈ householdStore.projects, p._id = 10 ∧ 2 ∈ p.users ∧
            q = populateFields householdStore p) ∧
        (r = none ↔ ¬ ∃ p ∈ householdStore.projects, p._id = 10 ∧ 2 ∈ p.users)) ∧
      (∃ q, (getById (quietEnv 11 5) householdStore { id := 10, userId := 2 }).promise
          = .resolved (some q)) :=
  ⟨(getById_membership_gate (quietEnv 11 5) householdStore { id := 10, userId := 2 }).2.2 rfl,
   ⟨_, rfl⟩⟩

/-! ## Project controller: post -/

/-- Counterexample to C6: on the empty store `post` for user 1 resolves with a project,
although no user 1 exists before or after the call. -/
theorem post_unknown_user_resolves :
    (∃ p, (post (quietEnv 11 5) emptyStore { name := "Household", userId := 1 }).promise
        = .resolved p ∧ p._id = 11) ∧
      findUser (post (quietEnv 11 5) emptyStore { name := "Household", userId := 1 }).store 1
        = none :=
  ⟨⟨_, rfl, rfl⟩, by decide⟩

/-- C6, amended: if `post` resolves with project `p` and a user with the given id existed
before the call, then afterwards that user exists and its projects contain `p._id`. -/
theorem post_links_existing_user (env : Env) (s : Store) (data : PostData)
    (p : PopulatedProject) (u : User)
    (hres : (post env s data).promise = .resolved p)
    (hu : findUser s data.userId = some u) :
    ∃ u2, findUser (post env s data).store data.userId = some u2 ∧ u2._id = u._id ∧
      p._id ∈ u2.projects := by
  obtain ⟨s1, s2, doc, hsave, hupd, hstore, hp⟩ := post_resolved env s data p hres
  have hs1 := (save_ok env s s1 _ _ hsave).2.2.1
  have hfind := (userUpdate_ok env s1 s2 _ _ _ doc hupd).2.2
  have hu1 : findUser s1 data.userId = some u := by
    unfold findUser at hu ⊢
    rw [hs1]; exact hu
  rw [hu1, Option.map_some'] at hfind
  refine ⟨{ u with projects := addToSet u.projects env.newId }, ?_, rfl, ?_⟩
  · rw [hstore]; exact hfind
  · subst hp
    exact (mem_addToSet u.projects env.newId env.newId).2 (Or.inr rfl)

/-- Witness of C6, amended: on the household store `post` for user 1 resolves with project
11, and user 1 holds 11 afterwards. -/
theorem post_links_existing_user_witness :
    ∃ u2, findUser (post (quietEnv 11 5) householdStore { name := "Trip", userId := 1 }).store 1
        = some u2 ∧ u2._id = 1 ∧ 11 ∈ u2.projects :=
  post_links_existing_user (quietEnv 11 5) householdStore { name := "Trip", userId := 1 }
    (populateFields (post (quietEnv 11 5) householdStore { name := "Trip", userId := 1 }).store
      (newProject (quietEnv 11 5) { name := "Trip", userId := 1 }))
    { _id := 1, projects := [10] } rfl rfl

/-- C7, amended: when the insert succeeds and the user update fails with `e`, `post` rejects
with `e`, issues no populate, and leaves the new project stored with every user exactly as
before the call; so no user holds its id, provided no user held the generated ObjectId
before the call. -/
theorem post_user_update_failure (env : Env) (s s1 : Store) (data : PostData)
    (project : Project) (e : JsError)
    (hsave : ProjectModel.save env s (newProject env data) = .ok (s1, project))
    (hupd : env.userUpdateError = some e) :
    (post env s data).promise = .rejected e ∧
      (post env s data).calls = [.projectSave, .userFindOneAndUpdate] ∧
      Call.projectPopulate ∉ (post env s data).calls ∧
      project ∈ (post env s data).store.projects ∧
      (post env s data).store.projects = s.projects ++ [project] ∧
      (post env s data).store.users = s.users ∧
      ((∀ u ∈ s.users, env.newId ∉ u.projects) →
        ∀ u ∈ (post env s data).store.users, project._id ∉ u.projects) := by
  obtain ⟨hdoc, hprojects, husers, _⟩ := save_ok env s s1 _ _ hsave
  subst hdoc
  have hrun : post env s data =
      { store := s1, calls := [.projectSave, .userFindOneAndUpdate],
        promise := .rejected e, uncaught := none } := by
    unfold post
    simp only [hsave]
    simp [UserModel.findOneAndUpdate, hupd, Settled.reject]
  rw [hrun]
  refine ⟨rfl, rfl, by simp, ?_, hprojects, husers, ?_⟩
  · simp only [hprojects]
    exact List.mem_append_right _ (List.mem_singleton_self _)
  · intro hfresh u hu
    simp only [husers] at hu
    exact hfresh u hu

/-- Counterexample to C7: the only user of the store holds the id 11 and the generated
ObjectId is 11; the insert succeeds, the user update fails, `post` rejects with that error,
and afterwards a user does hold the id of the new project. -/
theorem post_user_update_failure_id_held :
    ProjectModel.save (userUpdateFailsEnv 11 5 (.db 7)) danglingStore
        (newProject (userUpdateFailsEnv 11 5 (.db 7)) { name := "Trip", userId := 1 })
      = .ok ({ danglingStore with
                projects := [newProject (userUpdateFailsEnv 11 5 (.db 7))
                  { name := "Trip", userId := 1 }] },
             newProject (userUpdateFailsEnv 11 5 (.db 7)) { name := "Trip", userId := 1 }) ∧
      (userUpdateFailsEnv 11 5 (.db 7)).userUpdateError = some (.db 7) ∧
      (post (userUpdateFailsEnv 11 5 (.db 7)) danglingStore { name := "Trip", userId := 1 }).promise
        = .rejected (.db 7) ∧
      (post (userUpdateFailsEnv 11 5 (.db 7)) danglingStore
          { name := "Trip", userId := 1 }).store.projects.map (fun q => q._id) = [11] ∧
      ∃ u ∈ (post (userUpdateFailsEnv 11 5 (.db 7)) danglingStore
          { name := "Trip", userId := 1 }).store.users, 11 ∈ u.projects := by
  refine ⟨rfl, rfl, by decide, by decide, ?_⟩
  exact ⟨{ _id := 1, projects := [11] }, by decide, by decide⟩

/-- Witness of C7, amended: on the household store with a failing user update, `post` for user 1
rejects with that error; project 11 stays stored and no user holds 11. -/
theorem post_user_update_failure_witness :
    (post (userUpdateFailsEnv 11 5 (.db 7)) householdStore { name := "Trip", userId := 1 }).promise
        = .rejected (.db 7) ∧
      Call.projectPopulate ∉
        (post (userUpdateFailsEnv 11 5 (.db 7)) householdStore { name := "Trip", userId := 1 }).calls ∧
      (∀ u ∈ (post (userUpdateFailsEnv 11 5 (.db 7)) householdStore
            { name := "Trip", userId := 1 }).store.users,
          (newProject (userUpdateFailsEnv 11 5 (.db 7)) { name := "Trip", userId := 1 })._id
            ∉ u.projects) :=
  have h := post_user_update_failure (userUpdateFailsEnv 11 5 (.db 7)) householdStore
    { householdStore with
      projects := householdStore.projects ++
        [newProject (userUpdateFailsEnv 11 5 (.db 7)) { name := "Trip", userId := 1 }] }
    { name := "Trip", userId := 1 }
    (newProject (userUpdateFailsEnv 11 5 (.db 7)) { name := "Trip", userId := 1 })
    (.db 7) rfl rfl
  ⟨h.1, h.2.2.1, h.2.2.2.2.2.2 (by decide)⟩

/-- C8: after two successful `post` calls for an existing user whose projects hold no
duplicate, the user's projects contain the id of each new project exactly once and every id
held before exactly once. -/
theorem post_twice_projects_once (env1 env2 : Env) (s : Store) (d1 d2 : PostData)
    (p1 p2 : PopulatedProject) (u : User)
    (hu : findUser s d1.userId = some u) (hsame : d2.userId = d1.userId)
    (hset : u.projects.Nodup)
    (h1 : (post env1 s d1).promise = .resolved p1)
    (h2 : (post env2 (post env1 s d1).store d2).promise = .resolved p2) :
    ∃ u2, findUser (post env2 (post env1 s d1).store d2).store d1.userId = some u2 ∧
      u2.projects.count p1._id = 1 ∧ u2.projects.count p2._id = 1 ∧
      ∀ x ∈ u.projects, u2.projects.count x = 1 := by
  obtain ⟨sa, sb, doc1, hsave1, hupd1, hstore1, hp1⟩ := post_resolved env1 s d1 p1 h1
  have hua : findUser sa d1.userId = some u := by
    unfold findUser at hu ⊢
    rw [(save_ok env1 s sa _ _ hsave1).2.2.1]; exact hu
  have hub := (userUpdate_ok env1 sa sb _ _ _ doc1 hupd1).2.2
  rw [hua, Option.map_some'] at hub
  rw [hstore1] at h2 ⊢
  obtain ⟨sc, sd, doc2, hsave2, hupd2, hstore2, hp2⟩ := post_resolved env2 sb d2 p2 h2
  rw [hsame] at hupd2
  have huc : findUser sc d1.userId
      = some { u with projects := addToSet u.projects env1.newId } := by
    unfold findUser at hub ⊢
    rw [(save_ok env2 sb sc _ _ hsave2).2.2.1]; exact hub
  have hud := (userUpdate_ok env2 sc sd _ _ _ doc2 hupd2).2.2
  rw [huc, Option.map_some'] at hud
  rw [hstore2]
  refine ⟨{ u with projects := addToSet (addToSet u.projects env1.newId) env2.newId },
    hud, ?_, ?_, ?_⟩
  · subst hp1
    refine List.count_eq_one_of_mem (nodup_addToSet _ _ (nodup_addToSet _ _ hset)) ?_
    exact (mem_addToSet _ _ _).2 (Or.inl ((mem_addToSet _ _ _).2 (Or.inr rfl)))
  · subst hp2
    refine List.count_eq_one_of_mem (nodup_addToSet _ _ (nodup_addToSet _ _ hset)) ?_
    exact (mem_addToSet _ _ _).2 (Or.inr rfl)
  · intro x hx
    refine List.count_eq_one_of_mem (nodup_addToSet _ _ (nodup_addToSet _ _ hset)) ?_
    exact (mem_addToSet _ _ _).2 (Or.inl ((mem_addToSet _ _ _).2 (Or.inl hx)))

/-- Witness of C8: user 1 of the household store, holding project 10, creates projects 11
and 12 with the same name; afterwards it holds 10, 11 and 12 once each. -/
theorem post_twice_projects_once_witness :
    ∃ u2, findUser (post (quietEnv 12 6)
          (post (quietEnv 11 5) householdStore { name := "Trip", userId := 1 }).store
          { name := "Trip", userId := 1 }).store 1 = some u2 ∧
      u2.projects.count 11 = 1 ∧ u2.projects.count 12 = 1 ∧
      ∀ x ∈ [10], u2.projects.count x = 1 :=
  post_twice_projects_once (quietEnv 11 5) (quietEnv 12 6) householdStore
    { name := "Trip", userId := 1 } { name := "Trip", userId := 1 }
    (populateFields (post (quietEnv 11 5) householdStore { name := "Trip", userId := 1 }).store
      (newProject (quietEnv 11 5) { name := "Trip", userId := 1 }))
    (populateFields (post (quietEnv 12 6)
        (post (quietEnv 11 5) householdStore { name := "Trip", userId := 1 }).store
        { name := "Trip", userId := 1 }).store
      (newProject (quietEnv 12 6) { name := "Trip", userId := 1 }))
    { _id := 1, projects := [10] } rfl rfl (by decide) rfl rfl

/-! ## Ownership invariant -/

/-- Counterexample to C9: on the empty store `post` for user 1 resolves with a project whose
owners and users are empty, the user document not being there to expand; the stored project
has owners and users `[1]`. -/
theorem post_unknown_user_resolves_without_owners :
    (∃ p, (post (quietEnv 11 5) emptyStore { name := "Household", userId := 1 }).promise
        = .resolved p ∧ p.owners = [] ∧ p.users = []) ∧
      (post (quietEnv 11 5) emptyStore { name := "Household", userId := 1 }).store.projects.map
          (fun q => (q.owners, q.users)) = [([1], [1])] :=
  ⟨⟨_, rfl, rfl, rfl⟩, by decide⟩

/-- C9, amended: the project `post` builds and inserts has owners and users `[userId]`; when
`post` resolves, that project is stored, and, if the user existed before the call, the
project it resolves with has exactly that user as its owners and as its users; `rename`
leaves the id, owners and users of every stored project and all users unchanged; so every
sequence of `post` and `rename` steps keeps the ownership invariant of the stored
projects. -/
theorem ownership_invariant (env : Env) (s : Store) (data : PostData) (renv : Env)
    (rdata : RenameData) (ops : List Op) :
    ((newProject env data).owners = [data.userId] ∧ (newProject env data).users = [data.userId]) ∧
    (∀ s1 project, ProjectModel.save env s (newProject env data) = .ok (s1, project) →
      project = newProject env data ∧ project ∈ (post env s data).store.projects) ∧
    (∀ p, (post env s data).promise = .resolved p →
      newProject env data ∈ (post env s data).store.projects ∧
      (∀ u, findUser s data.userId = some u →
        p.owners.map (fun v => v._id) = [data.userId] ∧
        p.users.map (fun v => v._id) = [data.userId])) ∧
    ((rename renv s rdata).store.projects.map (fun q => (q._id, q.owners, q.users))
        = s.projects.map (fun q => (q._id, q.owners, q.users)) ∧
      (rename renv s rdata).store.users = s.users) ∧
    (OwnershipInvariant s → OwnershipInvariant (runOps s ops)) := by
  refine ⟨⟨rfl, rfl⟩, ?_, ?_, ?_, runOps_preserves_invariant ops s⟩
  · intro s1 project hsave
    obtain ⟨hdoc, hprojects, _, _⟩ := save_ok env s s1 _ _ hsave
    refine ⟨hdoc, ?_⟩
    subst hdoc
    have hmem : newProject env data ∈ s.projects ++ [newProject env data] :=
      List.mem_append_right _ (List.mem_singleton_self _)
    rcases post_store_projects env s data with h | h
    · unfold post at h ⊢
      simp only [hsave] at h ⊢
      have hid : (newProject env data)._id = env.newId := rfl
      cases hupd : UserModel.findOneAndUpdate env s1 data.userId (newProject env data)._id
          { runValidators := true } with
      | error e => simp only [hprojects]; exact hmem
      | ok r2 =>
        obtain ⟨s2, doc⟩ := r2
        have hs2 := (userUpdate_ok env s1 s2 _ _ _ doc hupd).1
        simp only
        cases ProjectModel.populate env s2 (newProject env data) <;>
          (simp only [hs2, hprojects]; exact hmem)
    · rw [h]; exact hmem
  · intro p hres
    obtain ⟨s1, s2, doc, hsave, hupd, hstore, hp⟩ := post_resolved env s data p hres
    obtain ⟨_, hprojects, husers, _⟩ := save_ok env s s1 _ _ hsave
    obtain ⟨hprojects2, _, hfind⟩ := userUpdate_ok env s1 s2 _ _ _ doc hupd
    refine ⟨?_, ?_⟩
    · rw [hstore, hprojects2, hprojects]
      exact List.mem_append_right _ (List.mem_singleton_self _)
    · intro u hu
      have hu1 : findUser s1 data.userId = some u := by
        unfold findUser at hu ⊢
        rw [husers]; exact hu
      rw [hu1, Option.map_some'] at hfind
      have hid : u._id = data.userId := by
        have := List.find?_some hu
        simpa using this
      subst hp
      simp [populateFields, newProject, hfind, hid]
  · exact rename_store _ (fun q => (q._id, q.owners, q.users)) (fun _ _ => rfl) renv s rdata

/-- Witness of C9, amended: on the household store, which satisfies the invariant, `post`
for user 1 resolves with a project owned by user 1, and the invariant holds after a `post`
followed by a `rename`. -/
theorem ownership_invariant_witness :
    OwnershipInvariant householdStore ∧
      OwnershipInvariant (runOps householdStore
        [.post (quietEnv 11 5) { name := "Trip", userId := 1 },
         .rename (quietEnv 12 6) { id := 11, userId := 1, name := "Journey" }]) ∧
      (populateFields (post (quietEnv 11 5) householdStore { name := "Trip", userId := 1 }).store
        (newProject (quietEnv 11 5) { name := "Trip", userId := 1 })).owners.map (fun v => v._id)
        = [1] :=
  have h := ownership_invariant (quietEnv 11 5) householdStore { name := "Trip", userId := 1 }
    (quietEnv 12 6) { id := 11, userId := 1, name := "Journey" }
    [.post (quietEnv 11 5) { name := "Trip", userId := 1 },
     .rename (quietEnv 12 6) { id := 11, userId := 1, name := "Journey" }]
  ⟨by decide, h.2.2.2.2 (by decide),
   ((h.2.2.1 _ rfl).2 { _id := 1, projects := [10] } rfl).1⟩

end MKeep
